import Mathlib

/-!
Verification development for the `termbuffer` terminal framebuffer.

This file shallowly embeds the core of `src/screen.rs`: the `Color` / `Char`
cell model, the double-buffered `Frame` grid with its column-major storage,
the `Screen` pair with its two rendering strategies (full redraw and
incremental diff redraw), and proves the spec's testable properties about
them.

Modelling conventions:
- Rust `usize` values (row/column counts and indices) are `Nat`; the spec
  declares `rows * cols` overflow out of scope, and all index arithmetic
  proved here stays far below `2^64`.
- The `as u16` casts in the cursor-goto emission are modelled exactly as
  two's-complement truncation, i.e. reduction modulo `2^16` (the release
  profile's wrapping semantics).
- A Rust panic (the `assert!` on the row count, and the bounds panic in
  `check_dims` / slice indexing) is modelled by `Option`/a `false` completion
  flag: a faulting operation produces no result state.
- Writes to the output sink are modelled as a list of abstract output items
  (`OutItem`): each distinct control sequence the code can emit becomes one
  constructor, carrying its parameters verbatim (so a true-color sequence
  carries its three channel values).
-/

/-- A Rust `char`: one Unicode scalar value, Lean's character type. -/
abbrev Glyph := Char

namespace Termbuffer

/-- The `Color` enum of `src/screen.rs`: 16 named colors plus the terminal
default, plus a true color triple. Channels are 8-bit in Rust; they are
embedded as `Nat` (structural equality coincides on the 8-bit range, and no
arithmetic is ever performed on them). -/
inductive Color where
  | Default
  | Black
  | Blue
  | Cyan
  | LightBlack
  | LightBlue
  | LightCyan
  | LightGreen
  | LightMagenta
  | LightRed
  | LightWhite
  | LightYellow
  | Magenta
  | Red
  | Rgb (r g b : Nat)
  | White
  | Yellow
deriving DecidableEq

/-- `impl Default for Color`: the terminal-default color. -/
def Color.defaultColor : Color := Color.Default

/-- The `Char` cell struct of `src/screen.rs`: one glyph plus foreground and
background colors. (Named `Char` in the source; it lives in the `Termbuffer`
namespace, while the glyph type is Lean's root `Char` via `Glyph`.) -/
structure Char where
  glyph : Glyph
  color_fg : Color
  color_bg : Color
deriving DecidableEq

/-- `Char::new(glyph)`: default colors. -/
def Char.new (glyph : Glyph) : Char :=
  { glyph := glyph, color_fg := Color.defaultColor, color_bg := Color.defaultColor }

/-- `impl Default for Char`: a blank space with default colors. -/
def Char.defaultChar : Char :=
  { glyph := ' ', color_fg := Color.defaultColor, color_bg := Color.defaultColor }

/-- The `Frame` struct of `src/screen.rs`: dimensions plus the flat cell
buffer (column-major: the cell at `(row, col)` lives at `col * rows + row`). -/
structure Frame where
  rows : Nat
  cols : Nat
  buffer : List Char
deriving DecidableEq

/-- `Frame::new(rows, cols)`: a blank frame; `vec![Default::default(); rows * cols]`. -/
def Frame.new (rows cols : Nat) : Frame :=
  { rows := rows, cols := cols, buffer := List.replicate (rows * cols) Char.defaultChar }

/-- `Frame::reset(rows, cols)`: clear the buffer, set the dimensions, and push
`rows * cols` default cells (clear-then-push of `n` defaults is `replicate`). -/
def Frame.reset (_f : Frame) (rows cols : Nat) : Frame :=
  { rows := rows, cols := cols, buffer := List.replicate (rows * cols) Char.defaultChar }

/-- `Frame::dims()`: the `(rows, cols)` pair. -/
def Frame.dims (f : Frame) : Nat × Nat := (f.rows, f.cols)

/-- `Frame::check_dims(row, col)`: `true` when the access is in bounds; the
Rust code panics otherwise. -/
def Frame.check_dims (f : Frame) (row col : Nat) : Bool :=
  decide (row < f.rows) && decide (col < f.cols)

/-- `Frame::get(row, col)`: bounds-checked read at storage index
`col * rows + row`. `none` models the panic (from `check_dims` or from
indexing past the end of the buffer). -/
def Frame.get (f : Frame) (row col : Nat) : Option Char :=
  if f.check_dims row col then f.buffer[col * f.rows + row]? else none

/-- `Frame::set(row, col, ch)`: bounds-checked write at storage index
`col * rows + row`; `none` models the panic, `some` carries the updated
frame. -/
def Frame.set (f : Frame) (row col : Nat) (ch : Char) : Option Frame :=
  if f.check_dims row col then
    if col * f.rows + row < f.buffer.length then
      some { f with buffer := f.buffer.set (col * f.rows + row) ch }
    else none
  else none

/-- Total read used by the renderers: the renderers only access in-bounds
cells of well-formed frames, where this agrees with `Frame.get`; the default
is never reached on those inputs. -/
def Frame.getD (f : Frame) (row col : Nat) : Char :=
  (f.get row col).getD Char.defaultChar

/-- `Frame::prev_row_col(row, col)`: the column-major storage predecessor of
a position; `none` at the origin, wrap to the end of the previous row at
column 0. -/
def Frame.prev_row_col (f : Frame) (row col : Nat) : Option (Nat × Nat) :=
  if row = 0 ∧ col = 0 then none
  else if col = 0 then some (row - 1, f.cols - 1)
  else some (row, col - 1)

/-- The `Screen` struct: the last-rendered frame and the one being built. -/
structure Screen where
  previous : Frame
  next : Frame
deriving DecidableEq

/-- `Screen::new(width, height)`: two identical blank frames (the Rust
parameters `width, height` are passed to `Frame::new(rows, cols)`
positionally). -/
def Screen.new (width height : Nat) : Screen :=
  { previous := Frame.new width height, next := Frame.new width height }

/-- `Screen::prepare_next_frame(width, height)`: swap the two frames, then
reset the new `next` to a blank frame of the requested size. -/
def Screen.prepare_next_frame (s : Screen) (width height : Nat) : Screen :=
  { previous := s.next, next := s.previous.reset width height }

/-- One item of the rendered output stream: each control sequence the code
can emit, carrying its parameters, plus raw glyph writes. -/
inductive OutItem where
  | clearAll
  | goto (a b : Nat)
  | fg (c : Color)
  | bg (c : Color)
  | glyph (g : Glyph)
deriving DecidableEq

/-- `u16::max_value()` as used in the renderers' `assert!`. -/
def u16Max : Nat := 65535

/-- The cursor-goto coordinate computation `(n as u16) + 1` in 16-bit
arithmetic: truncate to 16 bits, add one, wrap. -/
def gotoArg (n : Nat) : Nat := (n % 65536 + 1) % 65536

/-- The color-emission part of one full-redraw cell: compare against the
column-major storage predecessor in the same next frame (`prev_row_col`),
emitting a color sequence only on difference; at the origin emit both. -/
def Screen.redrawCellColors (s : Screen) (row col : Nat) : List OutItem :=
  let current := s.next.getD row col
  match s.next.prev_row_col row col with
  | some pc =>
      let prev := s.next.getD pc.1 pc.2
      (if prev.color_fg = current.color_fg then [] else [OutItem.fg current.color_fg]) ++
      (if prev.color_bg = current.color_bg then [] else [OutItem.bg current.color_bg])
  | none =>
      [OutItem.fg current.color_fg, OutItem.bg current.color_bg]

/-- Everything `Screen::redraw` emits for one cell: cursor-goto, the color
decision, then the glyph. -/
def Screen.redrawCell (s : Screen) (row col : Nat) : List OutItem :=
  OutItem.goto (gotoArg row) (gotoArg col) ::
    (s.redrawCellColors row col ++ [OutItem.glyph (s.next.getD row col).glyph])

/-- `Screen::redraw`: full redraw. Writes clear-screen, then asserts
`rows < u16::max_value()` (panic keeps the already-written clear in the sink:
the `Bool` is the completion flag), then the nested row-major loops. -/
def Screen.redraw (s : Screen) : List OutItem × Bool :=
  if s.next.rows < u16Max then
    ((List.range s.next.rows).foldl
      (fun acc row =>
        (List.range s.next.cols).foldl (fun acc2 col => acc2 ++ s.redrawCell row col) acc)
      [OutItem.clearAll], true)
  else ([OutItem.clearAll], false)

/-- The diff renderer's loop state: the two "currently active on the
terminal" color trackers plus the output written so far. -/
structure DiffState where
  prev_fg : Color
  prev_bg : Color
  out : List OutItem
deriving DecidableEq

/-- One iteration of the diff redraw's inner loop: skip unchanged cells;
otherwise goto, conditional foreground (updating the tracker), conditional
background, glyph. -/
def Screen.diffStep (s : Screen) (st : DiffState) (row col : Nat) : DiffState :=
  let nextC := s.next.getD row col
  let prevC := s.previous.getD row col
  if nextC = prevC then st
  else
    let st1 : DiffState := { st with out := st.out ++ [OutItem.goto (gotoArg row) (gotoArg col)] }
    let st2 : DiffState :=
      if nextC.color_fg = st1.prev_fg then st1
      else { st1 with out := st1.out ++ [OutItem.fg nextC.color_fg], prev_fg := nextC.color_fg }
    let st3 : DiffState :=
      if nextC.color_bg = st2.prev_bg then st2
      else { st2 with out := st2.out ++ [OutItem.bg nextC.color_bg], prev_bg := nextC.color_bg }
    { st3 with out := st3.out ++ [OutItem.glyph nextC.glyph] }

/-- `Screen::redraw_diff`: incremental redraw. Asserts the row bound first
(panic before anything is written), then initializes both trackers to the
default color, emits both as resets, and runs the nested row-major loops. -/
def Screen.redraw_diff (s : Screen) : List OutItem × Bool :=
  if s.next.rows < u16Max then
    (((List.range s.next.rows).foldl
        (fun st row =>
          (List.range s.next.cols).foldl (fun st2 col => s.diffStep st2 row col) st)
        { prev_fg := Color.defaultColor, prev_bg := Color.defaultColor,
          out := [OutItem.fg Color.defaultColor, OutItem.bg Color.defaultColor] }).out, true)
  else ([], false)

/-- `Screen::render`: full redraw when the dimensions differ, diff redraw
otherwise. -/
def Screen.render (s : Screen) : List OutItem × Bool :=
  if s.next.dims ≠ s.previous.dims then s.redraw else s.redraw_diff

/-- `Screen::render` as a state transformer. The Rust method takes `&self`
(an immutable borrow, no interior mutability), so the screen after the call
is the screen before it; this wrapper makes that state component explicit so
it can be stated. -/
def Screen.renderSt (s : Screen) : (List OutItem × Bool) × Screen :=
  (s.render, s)

/-! ### Spec-side description of the full redraw

The following definitions transcribe the spec's description of the
full-redraw algorithm (section "Full redraw algorithm"), to be compared with
the embedded code. `specCell` uses the spec's literal cursor-goto coordinates
`(row + 1, col + 1)`; `specCellU16` is the amended version in which each
coordinate is the 16-bit encoding produced by the `as u16` casts. -/

/-- Spec's color decision for one full-redraw cell: with a storage
predecessor per `prev_row_col`, compare against that predecessor cell's
colors in the same next frame, emitting only on difference; with no
predecessor (the origin) always emit both foreground and background. -/
def Screen.specCellColors (s : Screen) (row col : Nat) : List OutItem :=
  match s.next.prev_row_col row col with
  | none =>
      [OutItem.fg (s.next.getD row col).color_fg, OutItem.bg (s.next.getD row col).color_bg]
  | some pc =>
      (if (s.next.getD pc.1 pc.2).color_fg ≠ (s.next.getD row col).color_fg then
        [OutItem.fg (s.next.getD row col).color_fg] else []) ++
      (if (s.next.getD pc.1 pc.2).color_bg ≠ (s.next.getD row col).color_bg then
        [OutItem.bg (s.next.getD row col).color_bg] else [])

/-- Spec's per-cell emission: cursor-goto to `(row + 1, col + 1)` (literal
1-indexed coordinates, as the claim words it), the color decision, the
glyph. -/
def Screen.specCell (s : Screen) (row col : Nat) : List OutItem :=
  OutItem.goto (row + 1) (col + 1) ::
    (s.specCellColors row col ++ [OutItem.glyph (s.next.getD row col).glyph])

/-- Amended per-cell emission: as `specCell`, but the goto coordinates are
the 16-bit encodings `((n mod 2^16) + 1) mod 2^16` produced by the casts. -/
def Screen.specCellU16 (s : Screen) (row col : Nat) : List OutItem :=
  OutItem.goto (gotoArg row) (gotoArg col) ::
    (s.specCellColors row col ++ [OutItem.glyph (s.next.getD row col).glyph])

/-- Spec's full redraw: clear the entire screen, then every cell in
row-major order (outer rows, inner columns). -/
def Screen.redrawSpec (s : Screen) : List OutItem :=
  OutItem.clearAll ::
    (List.range s.next.rows).flatMap (fun row =>
      (List.range s.next.cols).flatMap (fun col => s.specCell row col))

/-- Amended spec full redraw: as `redrawSpec` with 16-bit-encoded goto
coordinates. -/
def Screen.redrawSpecU16 (s : Screen) : List OutItem :=
  OutItem.clearAll ::
    (List.range s.next.rows).flatMap (fun row =>
      (List.range s.next.cols).flatMap (fun col => s.specCellU16 row col))

/-! ### Output counting -/

/-- Is this item a cursor-goto sequence? -/
def OutItem.isGoto : OutItem → Bool
  | OutItem.goto _ _ => true
  | _ => false

/-- Is this item a glyph write? -/
def OutItem.isGlyph : OutItem → Bool
  | OutItem.glyph _ => true
  | _ => false

/-- Is this item a color-change sequence (foreground or background)? -/
def OutItem.isColor : OutItem → Bool
  | OutItem.fg _ => true
  | OutItem.bg _ => true
  | _ => false

/-- Number of cursor-goto sequences in an output stream. -/
def countGoto (l : List OutItem) : Nat := l.countP OutItem.isGoto

/-- Number of glyph writes in an output stream. -/
def countGlyph (l : List OutItem) : Nat := l.countP OutItem.isGlyph

/-- Number of color-change sequences in an output stream. -/
def countColor (l : List OutItem) : Nat := l.countP OutItem.isColor

/-- All in-bounds positions of an `rows × cols` grid, in row-major order. -/
def rowMajorIdx (rows cols : Nat) : List (Nat × Nat) :=
  (List.range rows).flatMap (fun r => (List.range cols).map (fun c => (r, c)))

/-- Does the next frame differ from the previous frame at this position? -/
def Screen.cellDiffers (s : Screen) (p : Nat × Nat) : Bool :=
  decide (s.next.getD p.1 p.2 ≠ s.previous.getD p.1 p.2)

/-- The number of in-bounds positions (of the next frame's grid) at which
the two frames hold different cells: the `k` of the diff-redraw claims. -/
def Screen.diffCount (s : Screen) : Nat :=
  (rowMajorIdx s.next.rows s.next.cols).countP s.cellDiffers

end Termbuffer

namespace Termbuffer

/-! ### Helper lemmas: flattening the nested render loops -/

/-- Accumulating `++ f x` over a list appends the concatenation of all the
`f x` to the initial accumulator. -/
lemma tb_foldl_acc {β γ : Type} (f : β → List γ) :
    ∀ (L : List β) (acc : List γ),
      L.foldl (fun a x => a ++ f x) acc = acc ++ L.flatMap f := by
  intro L
  induction L with
  | nil => simp
  | cons a L ih => intro acc; simp [ih, List.append_assoc]

/-- The nested row/column output loops of the full redraw produce the
row-major concatenation of the per-cell outputs. -/
lemma tb_nested_append {γ : Type} (f : Nat → Nat → List γ) (C : Nat) :
    ∀ (L : List Nat) (acc : List γ),
      L.foldl (fun a r => (List.range C).foldl (fun a2 c => a2 ++ f r c) a) acc
        = acc ++ L.flatMap (fun r => (List.range C).flatMap (f r)) := by
  intro L
  induction L with
  | nil => simp
  | cons a L ih => intro acc; simp [ih, tb_foldl_acc, List.append_assoc]

/-- The nested stateful row/column loops of the diff redraw are the same as
a single fold over the row-major position list. -/
lemma tb_nested_foldl {σ : Type} (step : σ → Nat → Nat → σ) (C : Nat) :
    ∀ (L : List Nat) (init : σ),
      L.foldl (fun st r => (List.range C).foldl (fun st2 c => step st2 r c) st) init
        = (L.flatMap (fun r => (List.range C).map (fun c => (r, c)))).foldl
            (fun st p => step st p.1 p.2) init := by
  intro L
  induction L with
  | nil => simp
  | cons a L ih => intro init; simp [List.foldl_append, List.foldl_map, ih]

/-! ### Helper lemmas: the diff redraw loop body -/

/-- A cell equal to its previous-frame counterpart is skipped entirely. -/
lemma tb_diffStep_skip (s : Screen) (st : DiffState) (r c : Nat)
    (h : s.next.getD r c = s.previous.getD r c) : s.diffStep st r c = st := by
  simp [Screen.diffStep, h]

/-- A changed cell appends one goto, at most two color sequences, and one
glyph. -/
lemma tb_diffStep_changed (s : Screen) (st : DiffState) (r c : Nat)
    (h : ¬ s.next.getD r c = s.previous.getD r c) :
    ∃ chunk, (s.diffStep st r c).out = st.out ++ chunk ∧
      countGoto chunk = 1 ∧ countGlyph chunk = 1 ∧ countColor chunk ≤ 2 := by
  simp only [Screen.diffStep, if_neg h]
  split_ifs with h1 h2 h2
  · exact ⟨[OutItem.goto (gotoArg r) (gotoArg c),
      OutItem.glyph (s.next.getD r c).glyph],
      by simp, by simp [countGoto, OutItem.isGoto],
      by simp [countGlyph, OutItem.isGlyph, OutItem.isGoto],
      by simp [countColor, OutItem.isColor]⟩
  · exact ⟨[OutItem.goto (gotoArg r) (gotoArg c),
      OutItem.bg (s.next.getD r c).color_bg,
      OutItem.glyph (s.next.getD r c).glyph],
      by simp, by simp [countGoto, OutItem.isGoto],
      by simp [countGlyph, OutItem.isGlyph],
      by simp [countColor, OutItem.isColor]⟩
  · exact ⟨[OutItem.goto (gotoArg r) (gotoArg c),
      OutItem.fg (s.next.getD r c).color_fg,
      OutItem.glyph (s.next.getD r c).glyph],
      by simp, by simp [countGoto, OutItem.isGoto],
      by simp [countGlyph, OutItem.isGlyph],
      by simp [countColor, OutItem.isColor]⟩
  · exact ⟨[OutItem.goto (gotoArg r) (gotoArg c),
      OutItem.fg (s.next.getD r c).color_fg,
      OutItem.bg (s.next.getD r c).color_bg,
      OutItem.glyph (s.next.getD r c).glyph],
      by simp, by simp [countGoto, OutItem.isGoto],
      by simp [countGlyph, OutItem.isGlyph],
      by simp [countColor, OutItem.isColor]⟩

/-- The diff loop over any list of positions appends, for each changed
position, exactly one goto and one glyph and at most two color sequences;
skipped positions append nothing. -/
lemma tb_diff_fold_counts (s : Screen) :
    ∀ (L : List (Nat × Nat)) (st : DiffState),
      ∃ rest,
        (L.foldl (fun t p => s.diffStep t p.1 p.2) st).out = st.out ++ rest ∧
        countGoto rest = L.countP s.cellDiffers ∧
        countGlyph rest = L.countP s.cellDiffers ∧
        countColor rest ≤ 2 * L.countP s.cellDiffers ∧
        (L.countP s.cellDiffers = 0 → rest = []) := by
  intro L
  induction L with
  | nil => intro st; exact ⟨[], by simp, by simp [countGoto], by simp [countGlyph],
      by simp [countColor], fun _ => rfl⟩
  | cons p L ih =>
    intro st
    by_cases hd : s.next.getD p.1 p.2 = s.previous.getD p.1 p.2
    · have hc : s.cellDiffers p = false := by simp [Screen.cellDiffers, hd]
      obtain ⟨rest, hout, hg, hgl, hcol, hz⟩ := ih st
      refine ⟨rest, ?_, ?_, ?_, ?_, ?_⟩
      · simpa [tb_diffStep_skip s st p.1 p.2 hd] using hout
      · simpa [List.countP_cons, hc] using hg
      · simpa [List.countP_cons, hc] using hgl
      · simpa [List.countP_cons, hc] using hcol
      · intro h0; exact hz (by simpa [List.countP_cons, hc] using h0)
    · have hc : s.cellDiffers p = true := by simp [Screen.cellDiffers, hd]
      obtain ⟨chunk, hcout, hc1, hc2, hc3⟩ := tb_diffStep_changed s st p.1 p.2 hd
      obtain ⟨rest, hout, hg, hgl, hcol, _⟩ := ih (s.diffStep st p.1 p.2)
      refine ⟨chunk ++ rest, ?_, ?_, ?_, ?_, ?_⟩
      · simp only [List.foldl_cons]
        rw [hout, hcout, List.append_assoc]
      · simp [countGoto, List.countP_append, List.countP_cons, hc] at *
        omega
      · simp [countGlyph, List.countP_append, List.countP_cons, hc] at *
        omega
      · simp [countColor, List.countP_append, List.countP_cons, hc] at *
        omega
      · intro h0
        simp [List.countP_cons, hc] at h0

/-! ### Helper lemmas: whole-render characterizations -/

/-- The full redraw, when its row assert passes, is the clear sequence
followed by the row-major concatenation of the per-cell outputs. -/
lemma tb_redraw_eq (s : Screen) (h : s.next.rows < u16Max) :
    s.redraw = (OutItem.clearAll ::
      (List.range s.next.rows).flatMap (fun r =>
        (List.range s.next.cols).flatMap (fun c => s.redrawCell r c)), true) := by
  simp [Screen.redraw, if_pos h, tb_nested_append]

/-- The diff redraw, when its row assert passes, is the two color resets
followed by output whose goto/glyph/color counts are governed by the number
of changed cells. -/
lemma tb_redraw_diff_eq (s : Screen) (h : s.next.rows < u16Max) :
    ∃ rest,
      s.redraw_diff =
        (OutItem.fg Color.defaultColor :: OutItem.bg Color.defaultColor :: rest, true) ∧
      countGoto rest = s.diffCount ∧
      countGlyph rest = s.diffCount ∧
      countColor rest ≤ 2 * s.diffCount ∧
      (s.diffCount = 0 → rest = []) := by
  obtain ⟨rest, hout, hg, hgl, hcol, hz⟩ :=
    tb_diff_fold_counts s (rowMajorIdx s.next.rows s.next.cols)
      { prev_fg := Color.defaultColor, prev_bg := Color.defaultColor,
        out := [OutItem.fg Color.defaultColor, OutItem.bg Color.defaultColor] }
  refine ⟨rest, ?_, hg, hgl, hcol, hz⟩
  simp only [Screen.redraw_diff, if_pos h, tb_nested_foldl]
  rw [show (rowMajorIdx s.next.rows s.next.cols) =
    ((List.range s.next.rows).flatMap fun r => (List.range s.next.cols).map fun c => (r, c))
    from rfl] at hout
  rw [hout]
  simp

/-! ### Helper lemmas: classifying full-redraw output items -/

/-- Everything the full redraw's color decision emits is a color sequence. -/
lemma tb_colors_isColor (s : Screen) (r c : Nat) :
    ∀ i ∈ s.redrawCellColors r c, i.isColor = true := by
  intro i hi
  rcases e : s.next.prev_row_col r c with _ | pc
  · simp [Screen.redrawCellColors, e] at hi
    rcases hi with h | h <;> simp [h, OutItem.isColor]
  · simp [Screen.redrawCellColors, e] at hi
    rcases hi with ⟨_, h⟩ | ⟨_, h⟩ <;> simp [h, OutItem.isColor]

/-- The 16-bit goto coordinate encoding is always below `2^16`. -/
lemma tb_gotoArg_lt (n : Nat) : gotoArg n < 65536 :=
  Nat.mod_lt _ (by decide)

/-- Every cursor-goto the full redraw emits for a cell carries coordinates
below `2^16`. -/
lemma tb_goto_mem_redrawCell {a b : Nat} (s : Screen) (r c : Nat)
    (h : OutItem.goto a b ∈ s.redrawCell r c) : a < 65536 ∧ b < 65536 := by
  simp only [Screen.redrawCell, List.mem_cons, List.mem_append] at h
  rcases h with h | h | h
  · cases h
    exact ⟨tb_gotoArg_lt r, tb_gotoArg_lt c⟩
  · have := tb_colors_isColor s r c _ h
    simp [OutItem.isColor] at this
  · simp at h

/-- The embedded per-cell code output coincides with the spec's per-cell
description once the goto coordinates are 16-bit encoded. -/
lemma tb_redrawCell_eq_specU16 (s : Screen) (r c : Nat) :
    s.redrawCell r c = s.specCellU16 r c := by
  rcases e : s.next.prev_row_col r c with _ | pc <;>
    simp [Screen.redrawCell, Screen.specCellU16, Screen.redrawCellColors,
      Screen.specCellColors, e]

/-! ### Helper lemmas: column-major storage index arithmetic -/

/-- In-bounds accesses land inside a well-formed buffer. -/
lemma tb_index_lt {row col rows cols : Nat} (hr : row < rows) (hc : col < cols) :
    col * rows + row < rows * cols := by
  have hsm : (col + 1) * rows = col * rows + rows := by ring
  have h1 : col * rows + row < (col + 1) * rows := by omega
  have h2 : (col + 1) * rows ≤ cols * rows :=
    Nat.mul_le_mul_right _ (Nat.succ_le_of_lt hc)
  have h3 : cols * rows = rows * cols := Nat.mul_comm _ _
  omega

/-- The column-major storage index determines the position. -/
lemma tb_index_inj {rows r1 c1 r2 c2 : Nat} (h1 : r1 < rows) (h2 : r2 < rows)
    (h : c1 * rows + r1 = c2 * rows + r2) : r1 = r2 ∧ c1 = c2 := by
  have hpos : 0 < rows := Nat.lt_of_le_of_lt (Nat.zero_le _) h1
  have e1 : (c1 * rows + r1) % rows = r1 := by
    rw [Nat.mul_comm c1 rows, Nat.mul_add_mod, Nat.mod_eq_of_lt h1]
  have e2 : (c2 * rows + r2) % rows = r2 := by
    rw [Nat.mul_comm c2 rows, Nat.mul_add_mod, Nat.mod_eq_of_lt h2]
  have hr : r1 = r2 := by rw [← e1, ← e2, h]
  have hcnum : c1 * rows = c2 * rows := by omega
  exact ⟨hr, Nat.eq_of_mul_eq_mul_right hpos hcnum⟩

end Termbuffer

namespace Termbuffer

/-! ### Concrete screens used by witnesses and counterexamples -/

/-- The cell written in the C3 scenario's baseline frame. -/
def charA : Char := { glyph := 'A', color_fg := Color.Red, color_bg := Color.Default }

/-- The cell written in the C3 scenario's next frame. -/
def charB : Char := { glyph := 'B', color_fg := Color.Red, color_bg := Color.Default }

/-- The C3 end-to-end scenario screen, built through the source operations:
a 4-row 3-column screen whose caller wrote `charA` at the origin, then began
a next frame of the same size and wrote `charB` at the origin. (The baseline
render between the two frames is omitted: `render` takes the screen by
immutable borrow and leaves it unchanged.) -/
def screenC3 : Screen :=
  let s0 := Screen.new 4 3
  let s1 : Screen := { s0 with next := (s0.next.set 0 0 charA).getD s0.next }
  let s2 := s1.prepare_next_frame 4 3
  { s2 with next := (s2.next.set 0 0 charB).getD s2.next }

/-- A 1-row screen wider than the 16-bit coordinate space; its cursor-goto
column coordinates wrap under the `as u16` casts. -/
def scrWide : Screen := Screen.new 1 65537

/-! ### The claims -/

/-- Claim C1: for every screen whose two frames have equal dimensions (and
whose row count passes the renderer's check, with well-formed buffers), the
diff redraw completes and writes the two initial reset-color sequences, and
the remainder of the output holds exactly `diffCount` cursor-goto sequences,
exactly `diffCount` glyph writes, and at most `2 * diffCount` color-change
sequences, where `diffCount` is the number of positions at which the two
frames differ; when the frames are identical nothing beyond the two resets
is written. -/
theorem c1_diff_redraw_counts (s : Screen)
    (hdims : s.next.dims = s.previous.dims)
    (hrows : s.next.rows < u16Max)
    (_hwfn : s.next.buffer.length = s.next.rows * s.next.cols)
    (_hwfp : s.previous.buffer.length = s.previous.rows * s.previous.cols) :
    s.render = s.redraw_diff ∧
    ∃ rest,
      s.redraw_diff =
        (OutItem.fg Color.Default :: OutItem.bg Color.Default :: rest, true) ∧
      countGoto rest = s.diffCount ∧
      countGlyph rest = s.diffCount ∧
      countColor rest ≤ 2 * s.diffCount ∧
      (s.diffCount = 0 →
        s.redraw_diff = ([OutItem.fg Color.Default, OutItem.bg Color.Default], true)) := by
  obtain ⟨rest, hout, hg, hgl, hcol, hz⟩ := tb_redraw_diff_eq s hrows
  refine ⟨by simp [Screen.render, hdims], rest, hout, hg, hgl, hcol, fun h0 => ?_⟩
  rw [hout, hz h0]
  rfl

/-- Witness for C1: the scenario screen, whose frames differ at one
position. -/
theorem c1_diff_redraw_counts_witness :
    screenC3.next.dims = screenC3.previous.dims ∧
    screenC3.next.rows < u16Max ∧
    screenC3.next.buffer.length = screenC3.next.rows * screenC3.next.cols ∧
    screenC3.previous.buffer.length = screenC3.previous.rows * screenC3.previous.cols ∧
    (screenC3.render = screenC3.redraw_diff ∧
      ∃ rest,
        screenC3.redraw_diff =
          (OutItem.fg Color.Default :: OutItem.bg Color.Default :: rest, true) ∧
        countGoto rest = screenC3.diffCount ∧
        countGlyph rest = screenC3.diffCount ∧
        countColor rest ≤ 2 * screenC3.diffCount ∧
        (screenC3.diffCount = 0 →
          screenC3.redraw_diff =
            ([OutItem.fg Color.Default, OutItem.bg Color.Default], true))) :=
  ⟨by decide, by decide, by decide, by decide,
    c1_diff_redraw_counts screenC3 (by decide) (by decide) (by decide) (by decide)⟩

/-- Claim C2: `render` performs the full redraw exactly when the two frames'
dimensions differ and the diff redraw exactly when they are equal, and the
output begins with the clear-entire-screen sequence exactly when the
dimensions differ. -/
theorem c2_render_strategy (s : Screen) :
    ((s.render.1.head? = some OutItem.clearAll) ↔ s.next.dims ≠ s.previous.dims) ∧
    (s.next.dims ≠ s.previous.dims → s.render = s.redraw) ∧
    (s.next.dims = s.previous.dims → s.render = s.redraw_diff) := by
  by_cases hd : s.next.dims = s.previous.dims
  · have hr : s.render = s.redraw_diff := by simp [Screen.render, hd]
    refine ⟨?_, fun h => absurd hd h, fun _ => hr⟩
    rw [hr]
    by_cases hb : s.next.rows < u16Max
    · obtain ⟨rest, hout, _⟩ := tb_redraw_diff_eq s hb
      rw [hout]
      simp [hd]
    · simp [Screen.redraw_diff, if_neg hb, hd]
  · have hr : s.render = s.redraw := by simp [Screen.render, hd]
    refine ⟨?_, fun _ => hr, fun h => absurd h hd⟩
    rw [hr]
    by_cases hb : s.next.rows < u16Max
    · rw [tb_redraw_eq s hb]
      simp [hd]
    · simp [Screen.redraw, if_neg hb, hd]

/-- A screen whose frames have different dimensions, for the C2 witness. -/
def scrP : Screen := (Screen.new 1 1).prepare_next_frame 2 2

/-- Witness for C2: a screen that was just resized from 1x1 to 2x2. -/
theorem c2_render_strategy_witness :
    ((scrP.render.1.head? = some OutItem.clearAll) ↔ scrP.next.dims ≠ scrP.previous.dims) ∧
    (scrP.next.dims ≠ scrP.previous.dims → scrP.render = scrP.redraw) ∧
    (scrP.next.dims = scrP.previous.dims → scrP.render = scrP.redraw_diff) :=
  c2_render_strategy scrP

/-- Counterexample to claim C3: in the 4x3 scenario (baseline `{A, Red,
Default}` at the origin, next frame `{B, Red, Default}` at the origin), the
diff redraw does NOT emit zero color-change sequences after its two initial
resets: the color tracker is reset to the default color at the start of every
diff render, so the changed cell's red foreground is re-emitted. The first
two conjuncts record that both `set` calls used to build the scenario
succeeded. -/
theorem c3_diff_scenario_cex :
    ((Screen.new 4 3).next.set 0 0 charA).isSome = true ∧
    ((((Screen.new 4 3)).prepare_next_frame 4 3).next.set 0 0 charB).isSome = true ∧
    screenC3.redraw_diff =
      ([OutItem.fg Color.Default, OutItem.bg Color.Default,
        OutItem.goto 1 1, OutItem.fg Color.Red, OutItem.glyph 'B'], true) ∧
    countColor (screenC3.redraw_diff.1.drop 2) ≠ 0 := by decide

/-- Claim C3 as amended: the scenario's diff redraw emits exactly one
cursor-goto, to `(1, 1)`, exactly one color-change sequence (the foreground
Red, because the tracked foreground was reset to the default color at the
start of the render), and the glyph `B`. -/
theorem c3_diff_scenario_amended :
    screenC3.redraw_diff =
      ([OutItem.fg Color.Default, OutItem.bg Color.Default,
        OutItem.goto 1 1, OutItem.fg Color.Red, OutItem.glyph 'B'], true) ∧
    countGoto (screenC3.redraw_diff.1.drop 2) = 1 ∧
    countColor (screenC3.redraw_diff.1.drop 2) = 1 ∧
    countGlyph (screenC3.redraw_diff.1.drop 2) = 1 := by decide

/-- Claim C4: on a well-formed frame, `get` after an in-bounds
`set (row, col, ch)` returns exactly `ch` at `(row, col)` and the value it
returned before the set at every other in-bounds position. -/
theorem c4_set_get_roundtrip (f : Frame) (row col : Nat) (ch : Char)
    (hr : row < f.rows) (hc : col < f.cols)
    (hwf : f.buffer.length = f.rows * f.cols) :
    ∃ fnew, f.set row col ch = some fnew ∧
      fnew.get row col = some ch ∧
      ∀ r2 c2, r2 < f.rows → c2 < f.cols → ¬(r2 = row ∧ c2 = col) →
        fnew.get r2 c2 = f.get r2 c2 := by
  have hcd : f.check_dims row col = true := by
    simp [Frame.check_dims, hr, hc]
  have hidx : col * f.rows + row < f.buffer.length := by
    rw [hwf]; exact tb_index_lt hr hc
  refine ⟨{ f with buffer := f.buffer.set (col * f.rows + row) ch }, ?_, ?_, ?_⟩
  · simp [Frame.set, hcd, hidx]
  · simp [Frame.get, Frame.check_dims, hr, hc]
    exact List.getElem?_set_self (by simpa using hidx)
  · intro r2 c2 hr2 hc2 hne
    have hidxne : col * f.rows + row ≠ c2 * f.rows + r2 := by
      intro he
      exact hne ⟨(tb_index_inj hr hr2 he).1.symm, (tb_index_inj hr hr2 he).2.symm⟩
    simp [Frame.get, Frame.check_dims, hr2, hc2]
    exact List.getElem?_set_ne hidxne

/-- Witness for C4: writing `charB` into cell (1, 2) of a blank 2x3 frame. -/
theorem c4_set_get_roundtrip_witness :
    1 < (Frame.new 2 3).rows ∧ 2 < (Frame.new 2 3).cols ∧
    (Frame.new 2 3).buffer.length = (Frame.new 2 3).rows * (Frame.new 2 3).cols ∧
    (∃ fnew, (Frame.new 2 3).set 1 2 charB = some fnew ∧
      fnew.get 1 2 = some charB ∧
      ∀ r2 c2, r2 < (Frame.new 2 3).rows → c2 < (Frame.new 2 3).cols →
        ¬(r2 = 1 ∧ c2 = 2) → fnew.get r2 c2 = (Frame.new 2 3).get r2 c2) :=
  ⟨by decide, by decide, by decide,
    c4_set_get_roundtrip (Frame.new 2 3) 1 2 charB (by decide) (by decide) (by decide)⟩

/-- Claim C5: `get` and `set` with a row or column at or beyond the
respective dimension fault (panic, modelled as `none`): no value is read, no
updated frame is produced (so the frame is unchanged), and neither operation
clamps, wraps, or silently succeeds. -/
theorem c5_out_of_bounds_faults (f : Frame) (row col : Nat) (ch : Char)
    (hoob : f.rows ≤ row ∨ f.cols ≤ col) :
    f.get row col = none ∧ f.set row col ch = none := by
  have hcd : f.check_dims row col = false := by
    rcases hoob with h | h <;> simp [Frame.check_dims] <;> omega
  simp [Frame.get, Frame.set, hcd]

/-- Witness for C5: row 5 of a 2x3 frame is out of bounds. -/
theorem c5_out_of_bounds_faults_witness :
    ((Frame.new 2 3).rows ≤ 5 ∨ (Frame.new 2 3).cols ≤ 0) ∧
    ((Frame.new 2 3).get 5 0 = none ∧ (Frame.new 2 3).set 5 0 charB = none) :=
  ⟨by decide, c5_out_of_bounds_faults (Frame.new 2 3) 5 0 charB (by decide)⟩

/-- Counterexample to claim C6: the full redraw does not emit a cursor-goto
to the literal coordinates `(row + 1, col + 1)` for every cell: on a 1-row,
65537-column screen (row count within the claimed precondition) the column
coordinate of cell `(0, 65536)` is truncated by the `as u16` cast, so the
output differs from the spec-transcribed `redrawSpec`, which contains
`goto 1 65537` while the code can only emit 16-bit coordinates. -/
theorem c6_full_redraw_goto_cex :
    scrWide.next.rows < u16Max ∧ scrWide.redraw ≠ (scrWide.redrawSpec, true) := by
  have hb : scrWide.next.rows < u16Max := by decide
  refine ⟨hb, fun h => ?_⟩
  have hcode := tb_redraw_eq scrWide hb
  rw [hcode] at h
  have h1 : scrWide.redrawSpec = OutItem.clearAll ::
      (List.range scrWide.next.rows).flatMap (fun r =>
        (List.range scrWide.next.cols).flatMap (fun c => scrWide.redrawCell r c)) := by
    have h2 := congrArg Prod.fst h
    simpa using h2.symm
  have hmem : OutItem.goto 1 65537 ∈ scrWide.redrawSpec := by
    apply List.mem_cons_of_mem
    refine List.mem_flatMap.mpr ⟨0, ?_, List.mem_flatMap.mpr ⟨65536, ?_, ?_⟩⟩
    · show (0 : Nat) ∈ List.range scrWide.next.rows
      have hrows : scrWide.next.rows = 1 := rfl
      rw [hrows]
      simp
    · show (65536 : Nat) ∈ List.range scrWide.next.cols
      have hcols : scrWide.next.cols = 65537 := rfl
      rw [hcols]
      exact List.mem_range.mpr (by omega)
    · show OutItem.goto 1 65537 ∈ scrWide.specCell 0 65536
      simp [Screen.specCell]
  rw [h1] at hmem
  rcases List.mem_cons.mp hmem with h2 | h2
  · simp at h2
  · obtain ⟨r, _, h3⟩ := List.mem_flatMap.mp h2
    obtain ⟨c, _, h4⟩ := List.mem_flatMap.mp h3
    have := (tb_goto_mem_redrawCell scrWide r c h4).2
    omega

/-- Claim C6 as amended: for every screen whose row count passes the
renderer's check, the full redraw completes and its output is exactly the
spec's description -- clear-entire-screen first, then every cell of the next
frame in row-major order, each cell contributing a cursor-goto whose
coordinates are `(row + 1, col + 1)` encoded in 16 bits (reduced mod `2^16`
by the `as u16` casts), then the `prev_row_col`-predecessor color decision
(both colors at the origin, including a true-color sequence carrying its
channel values verbatim), then the glyph. -/
theorem c6_full_redraw_matches_spec (s : Screen) (h : s.next.rows < u16Max) :
    s.redraw = (s.redrawSpecU16, true) := by
  rw [tb_redraw_eq s h, Screen.redrawSpecU16]
  simp [tb_redrawCell_eq_specU16]

/-- A small screen whose origin cell is a true-color cell, for the C6
witness. -/
def scrRgb : Screen :=
  let s0 := Screen.new 1 2
  { s0 with next := (s0.next.set 0 0
      { glyph := 'x', color_fg := Color.Rgb 10 20 30, color_bg := Color.Default }).getD s0.next }

/-- Witness for C6 (amended): a 1x2 screen with a true-color origin cell;
the full redraw matches the spec description and its output contains the
foreground sequence carrying the channel values 10, 20, 30 verbatim and the
background reset. -/
theorem c6_full_redraw_matches_spec_witness :
    scrRgb.next.rows < u16Max ∧
    scrRgb.redraw = (scrRgb.redrawSpecU16, true) ∧
    OutItem.fg (Color.Rgb 10 20 30) ∈ scrRgb.redraw.1 ∧
    OutItem.bg Color.Default ∈ scrRgb.redraw.1 :=
  ⟨by decide, c6_full_redraw_matches_spec scrRgb (by decide), by decide, by decide⟩

/-- Claim C7, at the failing boundary input: a screen with 65535 rows --
which fits an unsigned 16-bit value, so per the claim (and the assert's own
message) the row-count check should pass -- nevertheless faults, because the
code's assert requires `rows < u16::max_value()`, i.e. `rows < 65535`. The
second conjunct shows 65536 rows also fault (as the claim demands) and the
third shows a small row count passes the check. -/
theorem c7_rows_boundary_fault :
    (Screen.new 65535 0).render = ([], false) ∧
    (Screen.new 65536 0).render = ([], false) ∧
    (Screen.new 2 0).render =
      ([OutItem.fg Color.Default, OutItem.bg Color.Default], true) := by decide

/-- Claim C8: `prev_row_col (0, 0)` is `none`; `prev_row_col (r, 0)` for
`r > 0` is `(r - 1, cols - 1)`; `prev_row_col (r2, c)` for `c > 0` is
`(r2, c - 1)`. -/
theorem c8_prev_row_col_spec (f : Frame) (r r2 c : Nat) (hr : 0 < r) (hc : 0 < c) :
    f.prev_row_col 0 0 = none ∧
    f.prev_row_col r 0 = some (r - 1, f.cols - 1) ∧
    f.prev_row_col r2 c = some (r2, c - 1) := by
  refine ⟨by simp [Frame.prev_row_col], ?_, ?_⟩
  · simp [Frame.prev_row_col]
    omega
  · simp [Frame.prev_row_col]
    omega

/-- Witness for C8: a 4x3 frame at positions (2, 0) and (0, 2). -/
theorem c8_prev_row_col_spec_witness :
    (0 : Nat) < 2 ∧ (0 : Nat) < 2 ∧
    ((Frame.new 4 3).prev_row_col 0 0 = none ∧
     (Frame.new 4 3).prev_row_col 2 0 = some (2 - 1, (Frame.new 4 3).cols - 1) ∧
     (Frame.new 4 3).prev_row_col 0 2 = some (0, 2 - 1)) :=
  ⟨by decide, by decide,
    c8_prev_row_col_spec (Frame.new 4 3) 2 0 2 (by decide) (by decide)⟩

/-- Claim C9: the invariant `buffer.length = rows * cols` holds after
`Frame.new`, after every `reset`, and after every in-bounds `set` (which
also preserves the dimensions); consequently the storage index
`col * rows + row` of an in-bounds access lies within the buffer. -/
theorem c9_frame_buffer_invariant (f : Frame) (r c row col : Nat) (ch : Char)
    (hwf : f.buffer.length = f.rows * f.cols)
    (hrow : row < f.rows) (hcol : col < f.cols) :
    (Frame.new r c).buffer.length = (Frame.new r c).rows * (Frame.new r c).cols ∧
    (f.reset r c).buffer.length = (f.reset r c).rows * (f.reset r c).cols ∧
    (∃ fnew, f.set row col ch = some fnew ∧
      fnew.buffer.length = fnew.rows * fnew.cols ∧
      fnew.rows = f.rows ∧ fnew.cols = f.cols) ∧
    col * f.rows + row < f.buffer.length := by
  have hidx : col * f.rows + row < f.buffer.length := by
    rw [hwf]; exact tb_index_lt hrow hcol
  refine ⟨by simp [Frame.new], by simp [Frame.reset], ?_, hidx⟩
  have hcd : f.check_dims row col = true := by
    simp [Frame.check_dims, hrow, hcol]
  refine ⟨{ f with buffer := f.buffer.set (col * f.rows + row) ch }, ?_, ?_, rfl, rfl⟩
  · simp [Frame.set, hcd, hidx]
  · simpa using hwf

/-- Witness for C9: a 3x2 frame, a reset to 5x7, and a set at (2, 1). -/
theorem c9_frame_buffer_invariant_witness :
    (Frame.new 3 2).buffer.length = (Frame.new 3 2).rows * (Frame.new 3 2).cols ∧
    (2 : Nat) < (Frame.new 3 2).rows ∧ (1 : Nat) < (Frame.new 3 2).cols ∧
    ((Frame.new 5 7).buffer.length = (Frame.new 5 7).rows * (Frame.new 5 7).cols ∧
     ((Frame.new 3 2).reset 5 7).buffer.length =
       ((Frame.new 3 2).reset 5 7).rows * ((Frame.new 3 2).reset 5 7).cols ∧
     (∃ fnew, (Frame.new 3 2).set 2 1 charA = some fnew ∧
        fnew.buffer.length = fnew.rows * fnew.cols ∧
        fnew.rows = (Frame.new 3 2).rows ∧ fnew.cols = (Frame.new 3 2).cols) ∧
     1 * (Frame.new 3 2).rows + 2 < (Frame.new 3 2).buffer.length) :=
  ⟨by decide, by decide, by decide,
    c9_frame_buffer_invariant (Frame.new 3 2) 5 7 2 1 charA (by decide) (by decide) (by decide)⟩

/-- Claim C10: `render` never modifies the screen (the Rust method borrows
it immutably; the state-transformer wrapper returns it unchanged), and
buffer rotation happens only in `prepare_next_frame`, which makes the old
next frame the new previous and resets the new next frame to a blank frame
of the requested size. -/
theorem c10_render_pure_rotation_only (s : Screen) (w h : Nat) :
    s.renderSt.2 = s ∧
    (s.prepare_next_frame w h).previous = s.next ∧
    (s.prepare_next_frame w h).next =
      { rows := w, cols := h, buffer := List.replicate (w * h) Char.defaultChar } :=
  ⟨rfl, rfl, rfl⟩

end Termbuffer
